import Mathlib

/-
Verification of the X1 token scanner's on-chain analysis engine.

The definitions below are a shallow embedding of the Python source:
  - `decodeMint` embeds the mint-account parsing portion of
    `X1RPC.get_token_info` (src/blockchain.py, lines 138-171);
  - `analyze_holders` embeds `HolderAnalyzer.analyze_holders`
    (src/blockchain.py, lines 1513-1554);
  - `reconcile`, `processPool`, `checkLPStatus` embed
    `X1RPC.check_lp_status` (src/blockchain.py, lines 442-740);
  - `check_burn_checked` embeds `X1RPC._check_burn_checked`
    (src/blockchain.py, lines 899-970);
  - `riskScoreRaw`, `classifyRisk`, `analyze` embed the risk-scoring and
    control flow of `TokenAnalyzer.analyze` (src/analyzer.py, lines 406-593).

Python floats are modelled as rationals; RPC calls are modelled as
observation environments: each remote lookup appears as an explicit field
of an environment record, with `Option`/`Bool` fields standing for the
`try/except`-absorbed failure modes of the source.
-/

namespace X1Scanner

/-- Little-endian byte composition: models `struct.unpack("<I", ...)` and
`struct.unpack("<Q", ...)` on a byte slice. -/
def leBytes (bs : List Nat) : Nat := bs.foldr (fun b acc => b + 256 * acc) 0

/-- Models the Python slice `raw_data[start : start + len]`. -/
def slice (raw : List Nat) (start len : Nat) : List Nat := (raw.drop start).take len

/-- Models the Python index `raw_data[i]` (only used in bounds in the source). -/
def byteAt (raw : List Nat) (i : Nat) : Nat := (raw.drop i).headD 0

/-- Mint state decoded from a mint account, as in the `TokenInfo` dataclass.
Addresses are kept as their raw 32-byte values (the source base58-encodes
them, which is injective and irrelevant to the claims). -/
structure TokenInfo where
  decimals : Nat
  supply : Nat
  mint_authority : Option (List Nat)
  freeze_authority : Option (List Nat)
  is_initialized : Bool
deriving DecidableEq

/-- Embeds the parsing part of `X1RPC.get_token_info`: the length guard
`len(raw_data) < 82` and the fixed-offset layout reads.  A parse failure is
`none` (the source returns `None`, surfaced by the orchestrator as the
`TokenInfoUnavailable` failure). -/
def decodeMint (raw : List Nat) : Option TokenInfo :=
  if raw.length < 82 then none
  else
    some { decimals := byteAt raw 44
           supply := leBytes (slice raw 36 8)
           mint_authority :=
             if leBytes (slice raw 0 4) = 1 then some (slice raw 4 32) else none
           freeze_authority :=
             if leBytes (slice raw 46 4) = 1 then some (slice raw 50 32) else none
           is_initialized := byteAt raw 45 == 1 }

/-- Embeds `X1RPC.is_valid_address`: the input is the result of
`base58.b58decode` (`none` when decoding raised), and validity is the
decoded length being exactly 32. -/
def is_valid_address (decoded : Option (List Nat)) : Bool :=
  match decoded with
  | none => false
  | some bs => bs.length == 32

/-- One element of the `getTokenLargestAccounts` response, as consumed by
`analyze_holders`: `amount` is the raw integer amount (`int(holder.get("amount"))`),
`uiAmount` the scaled display amount. -/
structure LargestAccount where
  amount : Nat
  uiAmount : ℚ
  address : String
deriving DecidableEq

/-- One row of the `top_holders` list built by `analyze_holders`. -/
structure HolderEntry where
  rank : Nat
  address : String
  amount : ℚ
  percent : ℚ
deriving DecidableEq

/-- The result dictionary of `analyze_holders`. -/
structure HolderStats where
  top_holders : List HolderEntry
  top_holder_percent : ℚ
  top_10_percent : ℚ
  holder_count : Nat
deriving DecidableEq

/-- The all-zero default dictionary that `analyze_holders` initializes and
returns unchanged when the largest-accounts list is empty or supply is 0. -/
def emptyHolderStats : HolderStats :=
  { top_holders := [], top_holder_percent := 0, top_10_percent := 0, holder_count := 0 }

/-- The per-holder percent expression
`(amount / total_supply * 100) if total_supply > 0 else 0`. -/
def holderPercent (total_supply : Nat) (amount : Nat) : ℚ :=
  if 0 < total_supply then (amount : ℚ) / (total_supply : ℚ) * 100 else 0

/-- Embeds `HolderAnalyzer.analyze_holders`: the early return on an empty
list or zero supply, the per-holder rows, the top-1 percent taken from the
first-ranked account, and the top-10 percent computed from the sum of the
first ten raw amounts divided by total supply. -/
def analyze_holders (largest : List LargestAccount) (total_supply : Nat) : HolderStats :=
  if largest = [] ∨ total_supply = 0 then emptyHolderStats
  else
    let holders := largest.enum.map fun p =>
      { rank := p.1 + 1, address := p.2.address, amount := p.2.uiAmount,
        percent := holderPercent total_supply p.2.amount : HolderEntry }
    let total_in_top_10 := ((largest.take 10).map (fun h => h.amount)).sum
    { top_holders := holders
      top_holder_percent :=
        match largest with
        | [] => 0
        | h :: _ => holderPercent total_supply h.amount
      top_10_percent :=
        if 0 < total_supply then (total_in_top_10 : ℚ) / (total_supply : ℚ) * 100 else 0
      holder_count := holders.length }

/-- The four risk classifications of `RiskLevel` in src/analyzer.py. -/
inductive RiskLevel where
  | safe
  | medium
  | high
  | critical
deriving DecidableEq

/-- Embeds the sequential risk-score accumulation of `TokenAnalyzer.analyze`
(src/analyzer.py lines 479-540): mint authority, freeze authority, holder
concentration, top-10 concentration, LP burn percent, and low liquidity. -/
def riskScoreRaw (mint_auth freeze_auth : Bool) (top_pct top10_pct : ℚ)
    (lp_found : Bool) (lp_burn_pct liq_usd liq_xn : ℚ) : Nat :=
  (if mint_auth then 25 else 0)
  + (if freeze_auth then 25 else 0)
  + (if top_pct > 50 then 20 else if top_pct > 20 then 10
     else if top_pct > 10 then 5 else 0)
  + (if top10_pct > 80 then 5 else 0)
  + (if lp_found then
       (if lp_burn_pct ≥ 90 then 0 else if lp_burn_pct ≥ 50 then 5
        else if lp_burn_pct > 0 then 10 else 15)
     else 15)
  + (if 0 < liq_usd ∧ liq_usd < 5000 then 5
     else if liq_usd = 0 ∧ 0 < liq_xn ∧ liq_xn < 2000 then 5 else 0)

/-- Embeds the classification thresholds of `TokenAnalyzer.analyze`
(src/analyzer.py lines 543-550); the source applies them to the raw
(unclamped) accumulated score. -/
def classifyRisk (score : Nat) : RiskLevel :=
  if 75 ≤ score then .critical
  else if 50 ≤ score then .high
  else if 25 ≤ score then .medium
  else .safe

/-- Embeds the burned/original reconciliation of `check_lp_status`
(src/blockchain.py lines 647-663), returning `(burned_amount,
original_supply_for_pool)` for the three cases. -/
def reconcile (initial_supply supply_ui incinerator_amount bc_burned total_minted : ℚ) :
    ℚ × ℚ :=
  if 0 < initial_supply ∧ supply_ui ≤ initial_supply then
    (initial_supply - supply_ui + incinerator_amount,
     if 0 < incinerator_amount then initial_supply + incinerator_amount else initial_supply)
  else if 0 < incinerator_amount ∨ 0 < bc_burned then
    if 0 < total_minted then
      (incinerator_amount + bc_burned, total_minted)
    else
      (incinerator_amount + bc_burned, supply_ui + bc_burned + incinerator_amount)
  else
    (0, if 0 < supply_ui then supply_ui
        else if 0 < initial_supply then initial_supply else 1)

/-- The per-pool burn percent expression
`(burned_amount / original * 100) if original > 0 else 0`. -/
def poolBurnPct (burned original : ℚ) : ℚ :=
  if 0 < original then burned / original * 100 else 0

/-- The `getAccountInfo` supply refetch for a resolved LP mint:
raw supply and decimals of the parsed mint data. -/
structure SupplyInfo where
  supply : Nat
  decimals : Nat
deriving DecidableEq

/-- Observations made while `check_lp_status` processes one pool candidate:
each field stands for the result of the RPC-backed sub-steps of the per-pool
loop body.  `fails` models an exception inside the per-pool `try` block
(absorbed by `except: continue`); `lpMint = none` models the offset scan
finding no verifiable LP mint; `supplyFetch = none` models the supply
refetch coming back empty. -/
structure PoolObs where
  fails : Bool
  lpMint : Option String
  supplyFetch : Option SupplyInfo
  initialSupply : ℚ
  incineratorAmount : ℚ
  incineratorTxs : Nat
  burnAccount : Option String
  bcBurned : ℚ
  bcTxCount : Nat
  totalMinted : ℚ
  pairLabel : String
deriving DecidableEq

/-- A pool account candidate returned by the `getProgramAccounts` offset
search: address, base64-decoded bytes (`none` when absent or undecodable),
and the observations for its subsequent processing. -/
structure PoolAcct where
  pubkey : String
  data : Option (List Nat)
  obs : PoolObs
deriving DecidableEq

/-- One entry of the `pool_details` list built by `check_lp_status`. -/
structure PoolEntry where
  pool_address : String
  lp_mint : Option String
  lp_supply : ℚ
  lp_original_supply : ℚ
  burned_amount : ℚ
  burn_percent : ℚ
  burn_tx_count : Nat
  burn_account : Option String
  burn_method : Option String
  pair_label : String
  burn_percent_of_total : ℚ
deriving DecidableEq

instance : Inhabited PoolEntry :=
  ⟨{ pool_address := "", lp_mint := none, lp_supply := 0, lp_original_supply := 0,
     burned_amount := 0, burn_percent := 0, burn_tx_count := 0, burn_account := none,
     burn_method := none, pair_label := "", burn_percent_of_total := 0 }⟩

/-- The result dictionary of `check_lp_status`. -/
structure LPStatus where
  lp_found : Bool
  lp_burned : Bool
  lp_burn_percent : ℚ
  lp_address : Option String
  lp_mint : Option String
  lp_total_supply : ℚ
  lp_burned_amount : ℚ
  pools : List PoolEntry
  total_lp_supply_all_pools : ℚ
  total_burned_all_pools : ℚ
  total_burn_percent : ℚ
  burn_tx_count : Nat
deriving DecidableEq

/-- The neutral default dictionary that `check_lp_status` initializes
(src/blockchain.py lines 455-469) and returns when nothing can be derived. -/
def defaultLPStatus : LPStatus :=
  { lp_found := false, lp_burned := false, lp_burn_percent := 0, lp_address := none,
    lp_mint := none, lp_total_supply := 0, lp_burned_amount := 0, pools := [],
    total_lp_supply_all_pools := 0, total_burned_all_pools := 0, total_burn_percent := 0,
    burn_tx_count := 0 }

/-- Environment for one cache-miss run of `check_lp_status`: the outcome of
the `getProgramAccounts` query at each search offset (`none` when the query
raised and the `except: continue` absorbed it). -/
structure LPEnv where
  offsetResults : List (Option (List PoolAcct))
deriving DecidableEq

/-- Embeds the pool discovery loop (src/blockchain.py lines 474-499):
failed offset queries are skipped, candidates with an empty address are
skipped, and candidates are deduplicated by account address. -/
def discoverPools (offsetResults : List (Option (List PoolAcct))) : List PoolAcct :=
  offsetResults.foldl (fun pools res =>
    match res with
    | none => pools
    | some accts =>
      accts.foldl (fun ps a =>
        if a.pubkey ≠ "" ∧ ¬ ps.any (fun p => p.pubkey == a.pubkey) then ps ++ [a]
        else ps) pools) []

/-- Accumulator of the per-pool loop: `pool_details` plus the four running
totals of `check_lp_status`. -/
structure LPAccum where
  details : List PoolEntry
  totalSupply : ℚ
  totalCurrent : ℚ
  totalBurned : ℚ
  totalTxs : Nat

def initLPAccum : LPAccum := ⟨[], 0, 0, 0, 0⟩

/-- The pool entry appended when no LP mint could be resolved
(src/blockchain.py lines 564-581): included with zero supply "so it shows
up in pool count", and not added to the totals. -/
def noLpEntry (p : PoolAcct) : PoolEntry :=
  { pool_address := p.pubkey, lp_mint := none, lp_supply := 0, lp_original_supply := 0,
    burned_amount := 0, burn_percent := 0, burn_tx_count := 0, burn_account := none,
    burn_method := none, pair_label := p.obs.pairLabel, burn_percent_of_total := 0 }

/-- The pool entry built when an LP mint was resolved and its supply
refetched (src/blockchain.py lines 591-689): burn-method label, tx count,
reconciliation formula, and capped burn percent. -/
def foundEntry (p : PoolAcct) (m : String) (sf : SupplyInfo) : PoolEntry :=
  let supply_ui : ℚ := (sf.supply : ℚ) / (10 : ℚ) ^ sf.decimals
  let o := p.obs
  let burn_method : Option String :=
    if 0 < o.incineratorAmount ∧ 0 < o.bcBurned then some "Both"
    else if 0 < o.incineratorAmount then some "incinerator"
    else if 0 < o.bcBurned then some "BurnChecked"
    else none
  let bo := reconcile o.initialSupply supply_ui o.incineratorAmount o.bcBurned o.totalMinted
  { pool_address := p.pubkey, lp_mint := some m, lp_supply := supply_ui,
    lp_original_supply := bo.2, burned_amount := bo.1,
    burn_percent := min 100 (poolBurnPct bo.1 bo.2),
    burn_tx_count := o.incineratorTxs + o.bcTxCount,
    burn_account := o.burnAccount, burn_method := burn_method,
    pair_label := o.pairLabel, burn_percent_of_total := 0 }

/-- Embeds the body of the per-pool loop of `check_lp_status`
(src/blockchain.py lines 513-698): missing or short data skips the pool,
an absorbed exception skips the pool, a missing LP mint appends a
zero-supply entry, a zero reconstructed original or a duplicate LP mint
skips the pool, and otherwise the entry is appended and the totals grow. -/
def processPool (acc : LPAccum) (p : PoolAcct) : LPAccum :=
  match p.data with
  | none => acc
  | some raw =>
    if raw.length < 168 then acc
    else if p.obs.fails then acc
    else
      match p.obs.lpMint with
      | none => { acc with details := acc.details ++ [noLpEntry p] }
      | some m =>
        match p.obs.supplyFetch with
        | none => acc
        | some sf =>
          if (foundEntry p m sf).lp_original_supply = 0 then acc
          else if acc.details.any (fun q => q.lp_mint == some m) then acc
          else
            { details := acc.details ++ [foundEntry p m sf],
              totalSupply := acc.totalSupply + (foundEntry p m sf).lp_original_supply,
              totalCurrent := acc.totalCurrent + (foundEntry p m sf).lp_supply,
              totalBurned := acc.totalBurned + (foundEntry p m sf).burned_amount,
              totalTxs := acc.totalTxs + (foundEntry p m sf).burn_tx_count }

/-- Descending comparison on reconstructed original LP supply, the key of
`pool_details.sort(key=..., reverse=True)`. -/
def entryGE (a b : PoolEntry) : Prop := b.lp_original_supply ≤ a.lp_original_supply

instance : DecidableRel entryGE := fun a b =>
  inferInstanceAs (Decidable (b.lp_original_supply ≤ a.lp_original_supply))

instance : IsTotal PoolEntry entryGE :=
  ⟨fun a b => (le_total b.lp_original_supply a.lp_original_supply).imp id id⟩

instance : IsTrans PoolEntry entryGE :=
  ⟨fun _ _ _ h1 h2 => le_trans h2 h1⟩

/-- The post-sort pass writing `burn_percent_of_total` into each pool entry
(src/blockchain.py lines 715-716). -/
def setBurnPctOfTotal (totalSupply : ℚ) (e : PoolEntry) : PoolEntry :=
  { e with burn_percent_of_total :=
      if 0 < totalSupply then e.burned_amount / totalSupply * 100 else 0 }

/-- The sorted pool list of `check_lp_status`: `pool_details` sorted
descending by reconstructed original supply (a stable sort, like Python's),
with the post-sort `burn_percent_of_total` pass applied. -/
def sortedPools (st : LPAccum) : List PoolEntry :=
  (st.details.insertionSort entryGE).map (setBurnPctOfTotal st.totalSupply)

/-- Embeds the aggregation tail of `check_lp_status` (src/blockchain.py
lines 700-736): the early return when nothing was processed (`lp_found`
was already set), else the descending sort, the pooled-sum overall burn
percent capped at 100, and the main-pool (head) backward-compatible
fields. -/
def aggregateLP (st : LPAccum) : LPStatus :=
  if st.details = [] then { defaultLPStatus with lp_found := true }
  else
    { lp_found := true
      lp_burned := decide (0 < st.totalBurned)
      lp_burn_percent := (sortedPools st).headI.burn_percent
      lp_address := some (sortedPools st).headI.pool_address
      lp_mint := (sortedPools st).headI.lp_mint
      lp_total_supply := (sortedPools st).headI.lp_supply
      lp_burned_amount := (sortedPools st).headI.burned_amount
      pools := sortedPools st
      total_lp_supply_all_pools := st.totalSupply
      total_burned_all_pools := st.totalBurned
      total_burn_percent :=
        min 100 (if 0 < st.totalSupply then st.totalBurned / st.totalSupply * 100 else 0)
      burn_tx_count := st.totalTxs }

/-- Embeds `X1RPC.check_lp_status` on a cache miss: discovery, the per-pool
loop, and aggregation.  The environment carries every absorbed failure mode
as an explicit `Option`/`Bool` field, so totality of this function is the
claim that no exception escapes. -/
def checkLPStatus (env : LPEnv) : LPStatus :=
  if discoverPools env.offsetResults = [] then defaultLPStatus
  else aggregateLP ((discoverPools env.offsetResults).foldl processPool initLPAccum)

/-- A parsed instruction as consumed by `_check_burn_checked`: type tag,
`info.mint`, the `tokenAmount.uiAmount` value when a `tokenAmount` object is
present, and the raw `info.amount` fallback. -/
structure ParsedIx where
  ixType : String
  mint : String
  tokenAmount : Option ℚ
  amountRaw : Nat
deriving DecidableEq

/-- A fetched transaction: top-level instructions and inner instruction
groups, flattened exactly as the source does. -/
structure TxObs where
  topIx : List ParsedIx
  innerIx : List (List ParsedIx)
deriving DecidableEq

def allInstructions (tx : TxObs) : List ParsedIx := tx.topIx ++ tx.innerIx.flatten

/-- The amount extraction of `_check_burn_checked`: the `tokenAmount`
uiAmount when present, else the raw amount scaled by decimals when
positive. -/
def burnIxAmount (decimals : Nat) (ix : ParsedIx) : ℚ :=
  match ix.tokenAmount with
  | some q => q
  | none => if 0 < ix.amountRaw then (ix.amountRaw : ℚ) / (10 : ℚ) ^ decimals else 0

/-- Embeds `X1RPC._check_burn_checked` (src/blockchain.py lines 899-970):
walk the fetched transactions (a failed fetch is skipped), scan top-level
and inner instructions, and for burn-type instructions passing the
`ix_mint == lp_mint or ix_type == "burn"` test add the positive amount and
bump the counter. -/
def check_burn_checked (lp_mint : String) (decimals : Nat)
    (txs : List (Option TxObs)) : ℚ × Nat :=
  txs.foldl (fun acc otx =>
    match otx with
    | none => acc
    | some tx =>
      (allInstructions tx).foldl (fun acc2 ix =>
        if ix.ixType = "burn" ∨ ix.ixType = "burnChecked" then
          if ix.mint = lp_mint ∨ ix.ixType = "burn" then
            let amount := burnIxAmount decimals ix
            if 0 < amount then (acc2.1 + amount, acc2.2 + 1) else acc2
          else acc2
        else acc2) acc) (0, 0)

/-- Environment of one `TokenAnalyzer.analyze` invocation: the base58
decoding of the input address, the owner check of `is_token_account`, the
raw mint account bytes (`none` when the fetch failed), and the inputs of
the downstream analyses. -/
structure AnalyzeEnv where
  decoded : Option (List Nat)
  isTokenOwner : Bool
  mintData : Option (List Nat)
  largest : List LargestAccount
  lpEnv : LPEnv
  lpInfoFound : Bool
  liquidityXn : ℚ
  xntUsdRate : ℚ
deriving DecidableEq

/-- The analysis outputs of `analyze` that the claims are about. -/
structure ReportCore where
  token : TokenInfo
  holders : HolderStats
  lpStatus : LPStatus
  lp_found : Bool
  risk_score : Nat
  risk_level : RiskLevel
deriving DecidableEq

/-- Message of the first `ValueError` of `analyze`. -/
def msgInvalidAddress : String := "Invalid mint address format"

/-- Message of the second `ValueError` of `analyze`. -/
def msgNotAToken : String := "Address is not a valid SPL token mint"

/-- Message of the third `ValueError` of `analyze`. -/
def msgTokenInfoUnavailable : String := "Could not fetch token information"

/-- Embeds the control flow of `TokenAnalyzer.analyze` (src/analyzer.py
lines 406-593): the three guarded failures, then the sub-analyses and the
risk scoring.  The source raises `ValueError` with three distinct messages;
the embedding returns them through `Except`. -/
def analyze (env : AnalyzeEnv) : Except String ReportCore :=
  if ! is_valid_address env.decoded then .error msgInvalidAddress
  else if ! env.isTokenOwner then .error msgNotAToken
  else
    match env.mintData.bind decodeMint with
    | none => .error msgTokenInfoUnavailable
    | some ti =>
      let holder_data := analyze_holders env.largest ti.supply
      let lp_status := checkLPStatus env.lpEnv
      let liquidity_xn := env.liquidityXn
      let liquidity_usd := if 0 < env.xntUsdRate then liquidity_xn * env.xntUsdRate else 0
      let lp_found := lp_status.lp_found || env.lpInfoFound
      let raw := riskScoreRaw ti.mint_authority.isSome ti.freeze_authority.isSome
        holder_data.top_holder_percent holder_data.top_10_percent lp_found
        lp_status.total_burn_percent liquidity_usd liquidity_xn
      .ok { token := ti, holders := holder_data, lpStatus := lp_status, lp_found := lp_found,
            risk_score := min 100 raw, risk_level := classifyRisk raw }

/-- Two pool entries never name the same resolved LP mint (entries with an
absent LP mint are unconstrained). -/
def mintDistinct (a b : PoolEntry) : Prop :=
  ∀ m, a.lp_mint = some m → b.lp_mint ≠ some m

/-- All burn figures of an entry are zero. -/
def entryZeros (e : PoolEntry) : Prop :=
  e.lp_original_supply = 0 ∧ e.burned_amount = 0 ∧ e.burn_tx_count = 0 ∧ e.lp_supply = 0

/-- Physical well-formedness of the per-pool observations: the source only
ever accumulates positive on-chain amounts into these four values, so they
are nonnegative. -/
def PoolObs.WF (o : PoolObs) : Prop :=
  0 ≤ o.initialSupply ∧ 0 ≤ o.incineratorAmount ∧ 0 ≤ o.bcBurned ∧ 0 ≤ o.totalMinted

instance (o : PoolObs) : Decidable o.WF :=
  inferInstanceAs (Decidable (0 ≤ o.initialSupply ∧ 0 ≤ o.incineratorAmount
    ∧ 0 ≤ o.bcBurned ∧ 0 ≤ o.totalMinted))

/-- Loop invariant of the per-pool fold: the running totals equal the sums
over `pool_details`, resolved LP mints are pairwise distinct, and entries
without a resolved LP mint carry only zeros. -/
def accSums (st : LPAccum) : Prop :=
  st.totalSupply = (st.details.map (fun e => e.lp_original_supply)).sum
  ∧ st.totalBurned = (st.details.map (fun e => e.burned_amount)).sum
  ∧ st.totalTxs = (st.details.map (fun e => e.burn_tx_count)).sum
  ∧ List.Pairwise mintDistinct st.details
  ∧ ∀ e ∈ st.details, e.lp_mint = none → entryZeros e

/-- Observations of a pool whose LP mint resolves to `M1`, with initial
supply 1000 and current supply 500. -/
def obsPools : PoolObs :=
  { fails := false, lpMint := some "M1",
    supplyFetch := some { supply := 500, decimals := 0 },
    initialSupply := 1000, incineratorAmount := 0, incineratorTxs := 0,
    burnAccount := none, bcBurned := 0, bcTxCount := 0, totalMinted := 0,
    pairLabel := "WXNT" }

/-- A concrete discovered pool account carrying `obsPools`. -/
def acctPools : PoolAcct :=
  { pubkey := "P1", data := some (List.replicate 168 0), obs := obsPools }

/-- Concrete environment: one offset query returning one pool whose LP mint
resolves to `M1`. -/
def envPools : LPEnv := { offsetResults := [some [acctPools]] }

/-- The single pool entry that `checkLPStatus envPools` produces. -/
def entryPools : PoolEntry :=
  { pool_address := "P1", lp_mint := some "M1", lp_supply := 500,
    lp_original_supply := 1000, burned_amount := 500, burn_percent := 50,
    burn_tx_count := 0, burn_account := none, burn_method := none,
    pair_label := "WXNT", burn_percent_of_total := 50 }

/-- The pool entry for `envPools` as it sits in `pool_details` before the
post-sort `burn_percent_of_total` pass. -/
def entryPools0 : PoolEntry :=
  { pool_address := "P1", lp_mint := some "M1", lp_supply := 500,
    lp_original_supply := 1000, burned_amount := 500, burn_percent := 50,
    burn_tx_count := 0, burn_account := none, burn_method := none,
    pair_label := "WXNT", burn_percent_of_total := 0 }

/-- The full result that `checkLPStatus envPools` produces. -/
def statusPools : LPStatus :=
  { lp_found := true, lp_burned := true, lp_burn_percent := 50, lp_address := some "P1",
    lp_mint := some "M1", lp_total_supply := 500, lp_burned_amount := 500,
    pools := [entryPools], total_lp_supply_all_pools := 1000,
    total_burned_all_pools := 500, total_burn_percent := 50, burn_tx_count := 0 }

/-- Observations of a pool whose LP mint cannot be resolved. -/
def obsNoMint : PoolObs :=
  { fails := false, lpMint := none, supplyFetch := none,
    initialSupply := 0, incineratorAmount := 0, incineratorTxs := 0,
    burnAccount := none, bcBurned := 0, bcTxCount := 0, totalMinted := 0,
    pairLabel := "Unknown" }

/-- A concrete discovered pool account carrying `obsNoMint`. -/
def acctNoMint : PoolAcct :=
  { pubkey := "P0", data := some (List.replicate 168 0), obs := obsNoMint }

/-- Concrete environment: one offset query returning one pool whose LP mint
cannot be resolved (`lpMint = none`). -/
def envNoMint : LPEnv := { offsetResults := [some [acctNoMint]] }

/-! ## Helper lemmas -/

lemma slice_take (l : List Nat) (s n : Nat) (h : s + n ≤ 82) :
    slice (l.take 82) s n = slice l s n := by
  unfold slice
  rw [List.drop_take, List.take_take]
  congr 1
  omega

lemma headD_take (x : List Nat) (k : Nat) (hk : 0 < k) :
    (x.take k).headD 0 = x.headD 0 := by
  cases x <;> cases k <;> simp_all

lemma byteAt_take (l : List Nat) (i : Nat) (h : i < 82) :
    byteAt (l.take 82) i = byteAt l i := by
  unfold byteAt
  rw [List.drop_take]
  exact headD_take _ _ (by omega)

lemma mintDistinct_symm : Symmetric mintDistinct := by
  intro a b h m hb ha
  exact h m ha hb

lemma setB_lp_mint (T : ℚ) (e : PoolEntry) :
    (setBurnPctOfTotal T e).lp_mint = e.lp_mint := rfl

lemma setB_orig (T : ℚ) (e : PoolEntry) :
    (setBurnPctOfTotal T e).lp_original_supply = e.lp_original_supply := rfl

lemma setB_burned (T : ℚ) (e : PoolEntry) :
    (setBurnPctOfTotal T e).burned_amount = e.burned_amount := rfl

lemma setB_tx (T : ℚ) (e : PoolEntry) :
    (setBurnPctOfTotal T e).burn_tx_count = e.burn_tx_count := rfl

lemma reconcile_pos (initial s incin bc tm : ℚ) (_h0 : 0 ≤ initial) (hs : 0 ≤ s)
    (h2 : 0 ≤ incin) (h3 : 0 ≤ bc) (_h4 : 0 ≤ tm) :
    0 < (reconcile initial s incin bc tm).2 := by
  unfold reconcile
  split_ifs <;> dsimp only <;>
    first
      | linarith
      | (casesm _ ∨ _ <;> linarith)

/-- Case analysis of one step of the per-pool loop: the pool is skipped, a
zero no-LP-mint entry is appended without touching the totals, or a fresh
entry with a resolved LP mint is appended and the totals grow by its
figures. -/
lemma processPool_cases (acc : LPAccum) (p : PoolAcct) :
    processPool acc p = acc
    ∨ (∃ e : PoolEntry, e.lp_mint = none ∧ e.lp_original_supply = 0 ∧ e.burned_amount = 0
        ∧ e.burn_tx_count = 0 ∧ e.lp_supply = 0
        ∧ processPool acc p = { acc with details := acc.details ++ [e] })
    ∨ (∃ e m, e.lp_mint = some m
        ∧ acc.details.any (fun q => q.lp_mint == some m) = false
        ∧ (p.obs.WF → 0 < e.lp_original_supply)
        ∧ processPool acc p =
            { details := acc.details ++ [e],
              totalSupply := acc.totalSupply + e.lp_original_supply,
              totalCurrent := acc.totalCurrent + e.lp_supply,
              totalBurned := acc.totalBurned + e.burned_amount,
              totalTxs := acc.totalTxs + e.burn_tx_count } ) := by
  unfold processPool
  cases hd : p.data with
  | none => exact Or.inl rfl
  | some raw =>
    dsimp only
    by_cases hlen : raw.length < 168
    · rw [if_pos hlen]
      exact Or.inl rfl
    · rw [if_neg hlen]
      by_cases hf : p.obs.fails
      · rw [if_pos hf]
        exact Or.inl rfl
      · rw [if_neg hf]
        cases hm : p.obs.lpMint with
        | none =>
          dsimp only
          exact Or.inr (Or.inl ⟨noLpEntry p, rfl, rfl, rfl, rfl, rfl, rfl⟩)
        | some m =>
          dsimp only
          cases hsf : p.obs.supplyFetch with
          | none => exact Or.inl rfl
          | some sf =>
            dsimp only
            by_cases h0 : (foundEntry p m sf).lp_original_supply = 0
            · rw [if_pos h0]
              exact Or.inl rfl
            · rw [if_neg h0]
              by_cases hdup : acc.details.any (fun q => q.lp_mint == some m) = true
              · rw [if_pos hdup]
                exact Or.inl rfl
              · rw [if_neg hdup]
                refine Or.inr (Or.inr ⟨foundEntry p m sf, m, rfl,
                  Bool.eq_false_iff.mpr hdup, fun hwf => ?_, rfl⟩)
                have hp := reconcile_pos p.obs.initialSupply
                  ((sf.supply : ℚ) / (10:ℚ) ^ sf.decimals)
                  p.obs.incineratorAmount p.obs.bcBurned p.obs.totalMinted
                  hwf.1 (by positivity) hwf.2.1 hwf.2.2.1 hwf.2.2.2
                simpa [foundEntry] using hp

lemma accSums_init : accSums initLPAccum := by
  refine ⟨rfl, rfl, rfl, List.Pairwise.nil, ?_⟩
  intro e he
  cases he

lemma processPool_accSums (acc : LPAccum) (p : PoolAcct) (h : accSums acc) :
    accSums (processPool acc p) := by
  obtain ⟨h1, h2, h3, hpw, hz⟩ := h
  rcases processPool_cases acc p with heq | ⟨e, he1, he2, he3, he4, he5, heq⟩
    | ⟨e, m, he1, hany, _, heq⟩
  · rw [heq]
    exact ⟨h1, h2, h3, hpw, hz⟩
  · rw [heq]
    refine ⟨?_, ?_, ?_, ?_, ?_⟩
    · simp [h1, he2]
    · simp [h2, he3]
    · simp [h3, he4]
    · rw [List.pairwise_append]
      refine ⟨hpw, by simp, ?_⟩
      intro a _ b hb m' _
      rw [List.mem_singleton] at hb
      subst hb
      rw [he1]
      simp
    · intro e' he' hnone
      rcases List.mem_append.mp he' with hin | hin
      · exact hz e' hin hnone
      · rw [List.mem_singleton] at hin
        subst hin
        exact ⟨he2, he3, he4, he5⟩
  · rw [heq]
    have hnotin : ∀ q ∈ acc.details, ¬ q.lp_mint = some m := by
      intro q hq hqm
      have : acc.details.any (fun q => q.lp_mint == some m) = true :=
        List.any_eq_true.mpr ⟨q, hq, by simp [hqm]⟩
      rw [hany] at this
      cases this
    refine ⟨?_, ?_, ?_, ?_, ?_⟩
    · simp [h1]
    · simp [h2]
    · simp [h3]
    · rw [List.pairwise_append]
      refine ⟨hpw, by simp, ?_⟩
      intro a ha b hb m' ham'
      rw [List.mem_singleton] at hb
      subst hb
      rw [he1]
      intro hcon
      apply hnotin a ha
      rw [ham']
      exact congrArg _ (Option.some.inj hcon).symm
    · intro e' he' hnone
      rcases List.mem_append.mp he' with hin | hin
      · exact hz e' hin hnone
      · rw [List.mem_singleton] at hin
        subst hin
        rw [he1] at hnone
        cases hnone

lemma foldl_accSums (pools : List PoolAcct) (acc : LPAccum) (h : accSums acc) :
    accSums (pools.foldl processPool acc) := by
  induction pools generalizing acc with
  | nil => exact h
  | cons p ps ih => exact ih (processPool acc p) (processPool_accSums acc p h)

lemma processPool_posInv (acc : LPAccum) (p : PoolAcct) (hwf : p.obs.WF)
    (h : ∀ e ∈ acc.details, ∀ m, e.lp_mint = some m → 0 < e.lp_original_supply) :
    ∀ e ∈ (processPool acc p).details, ∀ m, e.lp_mint = some m →
      0 < e.lp_original_supply := by
  rcases processPool_cases acc p with heq | ⟨e, he1, _, _, _, _, heq⟩
    | ⟨e, m0, he1, _, hpos, heq⟩
  · rw [heq]
    exact h
  · rw [heq]
    intro e' he' m hm
    rcases List.mem_append.mp he' with hin | hin
    · exact h e' hin m hm
    · rw [List.mem_singleton] at hin
      subst hin
      rw [he1] at hm
      cases hm
  · rw [heq]
    intro e' he' m hm
    rcases List.mem_append.mp he' with hin | hin
    · exact h e' hin m hm
    · rw [List.mem_singleton] at hin
      subst hin
      exact hpos hwf

lemma foldl_posInv (pools : List PoolAcct) (acc : LPAccum)
    (hwf : ∀ p ∈ pools, p.obs.WF)
    (h : ∀ e ∈ acc.details, ∀ m, e.lp_mint = some m → 0 < e.lp_original_supply) :
    ∀ e ∈ (pools.foldl processPool acc).details, ∀ m, e.lp_mint = some m →
      0 < e.lp_original_supply := by
  induction pools generalizing acc with
  | nil => exact h
  | cons p ps ih =>
    exact ih (processPool acc p) (fun q hq => hwf q (List.mem_cons_of_mem p hq))
      (processPool_posInv acc p (hwf p (List.mem_cons_self p ps)) h)

lemma sortedPools_sum {M : Type} [AddCommMonoid M] (st : LPAccum) (f : PoolEntry → M)
    (hf : ∀ e, f (setBurnPctOfTotal st.totalSupply e) = f e) :
    ((sortedPools st).map f).sum = (st.details.map f).sum := by
  unfold sortedPools
  rw [List.map_map]
  have h1 : f ∘ setBurnPctOfTotal st.totalSupply = f := funext fun e => hf e
  rw [h1]
  exact ((List.perm_insertionSort entryGE st.details).map f).sum_eq

lemma sortedPools_pairwise (st : LPAccum) (h : List.Pairwise mintDistinct st.details) :
    List.Pairwise mintDistinct (sortedPools st) := by
  unfold sortedPools
  rw [List.pairwise_map]
  have h2 : List.Pairwise mintDistinct (st.details.insertionSort entryGE) :=
    ((List.perm_insertionSort entryGE st.details).pairwise_iff
      (fun hab => mintDistinct_symm hab)).mpr h
  exact h2.imp (fun hab => hab)

lemma sortedPools_sorted (st : LPAccum) :
    List.Pairwise (fun a b => b.lp_original_supply ≤ a.lp_original_supply)
      (sortedPools st) := by
  unfold sortedPools
  rw [List.pairwise_map]
  exact (List.sorted_insertionSort entryGE st.details).imp (fun hab => hab)

lemma sortedPools_ne_nil (st : LPAccum) (h : st.details ≠ []) : sortedPools st ≠ [] := by
  intro hnil
  apply h
  have hlen := congrArg List.length hnil
  rw [sortedPools, List.length_map, List.length_insertionSort] at hlen
  exact List.length_eq_zero.mp hlen

lemma sortedPools_mem (st : LPAccum) (e : PoolEntry) (he : e ∈ sortedPools st) :
    ∃ d ∈ st.details, e = setBurnPctOfTotal st.totalSupply d := by
  unfold sortedPools at he
  rcases List.mem_map.mp he with ⟨d, hd, rfl⟩
  exact ⟨d, (List.mem_insertionSort entryGE).mp hd, rfl⟩

/-- The holder-concentration `elif` chain equals the claim's three disjoint
buckets `>50` / `(20, 50]` / `(10, 20]`. -/
lemma holder_bucket (p : ℚ) :
    (if p > 50 then 20 else if p > 20 then 10 else if p > 10 then (5:ℕ) else 0)
      = (if 50 < p then 20 else 0) + (if 20 < p ∧ p ≤ 50 then 10 else 0)
        + (if 10 < p ∧ p ≤ 20 then 5 else 0) := by
  split_ifs <;>
    first
      | omega
      | (exfalso; (try simp only [not_and_or, not_lt, not_le] at *);
         (try casesm* _ ∨ _, _ ∧ _) <;> linarith)

/-- The LP-burn `elif` chain equals the claim's buckets: `[50, 90)` adds 5,
`(0, 50)` adds 10, zero percent or no pool found adds 15 (and at least 90
adds nothing). -/
lemma lp_bucket (lf : Bool) (p : ℚ) (hp : 0 ≤ p) :
    (if lf then
       (if p ≥ 90 then 0 else if p ≥ 50 then 5 else if p > 0 then 10 else (15:ℕ))
     else 15)
      = (if lf = true ∧ 50 ≤ p ∧ p < 90 then 5 else 0)
        + (if lf = true ∧ 0 < p ∧ p < 50 then 10 else 0)
        + (if (lf = true ∧ p = 0) ∨ lf = false then 15 else 0) := by
  cases lf
  · simp
  · rcases eq_or_lt_of_le hp with h0 | h0
    · rw [← h0]
      norm_num
    · have hne : p ≠ 0 := ne_of_gt h0
      rcases lt_or_le p 50 with hA | hA
      · have h90 : ¬ (90:ℚ) ≤ p := by linarith
        have h50 : ¬ (50:ℚ) ≤ p := by linarith
        simp [h90, h50, h0, hA, hne]
      · rcases lt_or_le p 90 with hB | hB
        · have h90 : ¬ (90:ℚ) ≤ p := by linarith
          have hA' : ¬ p < 50 := by linarith
          simp [h90, hA, hA', h0, hB, hne]
        · have hB' : ¬ p < 90 := by linarith
          have hA' : ¬ p < 50 := by linarith
          simp [hB, hB', hA', hne]

/-- The low-liquidity `elif` chain equals the claim's single condition:
liquidity present and below its floor (the USD floor when a USD figure is
available, else the native floor). -/
lemma liq_bucket (u x : ℚ) :
    (if 0 < u ∧ u < 5000 then (5:ℕ)
     else if u = 0 ∧ 0 < x ∧ x < 2000 then 5 else 0)
      = (if (0 < u ∧ u < 5000) ∨ (u = 0 ∧ 0 < x ∧ x < 2000) then 5 else 0) := by
  split_ifs <;> first | rfl | tauto

lemma riskScoreRaw_le (ma fa lf : Bool) (tp t10 lpPct liqU liqX : ℚ) :
    riskScoreRaw ma fa tp t10 lf lpPct liqU liqX ≤ 95 := by
  unfold riskScoreRaw
  have h1 : (if ma then 25 else (0:ℕ)) ≤ 25 := by split <;> omega
  have h2 : (if fa then 25 else (0:ℕ)) ≤ 25 := by split <;> omega
  have h3 : (if tp > 50 then 20 else if tp > 20 then 10
      else if tp > 10 then (5:ℕ) else 0) ≤ 20 := by split_ifs <;> omega
  have h4 : (if t10 > 80 then (5:ℕ) else 0) ≤ 5 := by split <;> omega
  have h5 : (if lf then
      (if lpPct ≥ 90 then 0 else if lpPct ≥ 50 then 5
       else if lpPct > 0 then 10 else (15:ℕ)) else 15) ≤ 15 := by split_ifs <;> omega
  have h6 : (if 0 < liqU ∧ liqU < 5000 then (5:ℕ)
      else if liqU = 0 ∧ 0 < liqX ∧ liqX < 2000 then 5 else 0) ≤ 5 := by
    split_ifs <;> omega
  exact le_trans
    (add_le_add (add_le_add (add_le_add (add_le_add (add_le_add h1 h2) h3) h4) h5) h6)
    (by norm_num)

lemma discoverPools_envPools : discoverPools envPools.offsetResults = [acctPools] := rfl

lemma foundEntry_envPools :
    foundEntry acctPools "M1" { supply := 500, decimals := 0 } = entryPools0 := by
  norm_num [foundEntry, reconcile, poolBurnPct, entryPools0, acctPools, obsPools, min_def]

lemma foldl_envPools :
    List.foldl processPool initLPAccum [acctPools]
      = { details := [entryPools0],
          totalSupply := 1000, totalCurrent := 500, totalBurned := 500, totalTxs := 0 } := by
  rw [List.foldl_cons, List.foldl_nil]
  unfold processPool
  rw [show acctPools.data = some (List.replicate 168 0) from rfl]
  dsimp only
  rw [if_neg (by simp only [List.length_replicate]; omega)]
  rw [if_neg (by decide)]
  rw [show acctPools.obs.lpMint = some "M1" from rfl]
  dsimp only
  rw [show acctPools.obs.supplyFetch = some { supply := 500, decimals := 0 } from rfl]
  dsimp only
  rw [foundEntry_envPools]
  rw [if_neg (by norm_num [entryPools0])]
  rw [if_neg (by decide)]
  norm_num [initLPAccum, entryPools0]

lemma checkLPStatus_envPools : checkLPStatus envPools = statusPools := by
  unfold checkLPStatus
  rw [discoverPools_envPools, foldl_envPools]
  rw [if_neg (by simp)]
  have hsp : sortedPools
      { details := [entryPools0],
        totalSupply := 1000, totalCurrent := 500, totalBurned := 500, totalTxs := 0 }
      = [entryPools] := by
    norm_num [sortedPools, List.insertionSort, List.orderedInsert, setBurnPctOfTotal,
      entryPools0, entryPools]
  unfold aggregateLP
  rw [if_neg (by simp)]
  rw [hsp]
  norm_num [statusPools, entryPools, List.headI, min_def]

/-! ## Claim theorems -/

/-- C6: for every mint-account byte buffer shorter than 82 bytes the mint
decoder fails (returns `none`, the source's `MalformedAccount` outcome);
decoding depends only on the first 82 bytes (so it never reads past the
fixed-offset layout, in particular never past the end of a short buffer);
and decoding succeeds only on buffers of at least 82 bytes. -/
theorem decodeMint_bounds (raw : List Nat) :
    (raw.length < 82 → decodeMint raw = none)
    ∧ decodeMint raw = decodeMint (raw.take 82)
    ∧ (∀ ti, decodeMint raw = some ti → 82 ≤ raw.length) := by
  refine ⟨fun h => ?_, ?_, fun ti h => ?_⟩
  · unfold decodeMint
    rw [if_pos h]
  · by_cases h : raw.length < 82
    · rw [List.take_of_length_le (by omega)]
    · have h82 : ¬ (List.take 82 raw).length < 82 := by
        rw [List.length_take]
        omega
      unfold decodeMint
      rw [if_neg h, if_neg h82]
      rw [slice_take raw 0 4 (by omega), slice_take raw 4 32 (by omega),
          slice_take raw 36 8 (by omega), slice_take raw 46 4 (by omega),
          slice_take raw 50 32 (by omega), byteAt_take raw 44 (by omega),
          byteAt_take raw 45 (by omega)]
  · by_cases hlen : raw.length < 82
    · unfold decodeMint at h
      rw [if_pos hlen] at h
      cases h
    · omega

/-- C6 witness: a concrete 10-byte buffer is rejected. -/
theorem decodeMint_bounds_witness :
    (List.replicate 10 0).length < 82 ∧ decodeMint (List.replicate 10 0) = none :=
  ⟨by decide, (decodeMint_bounds (List.replicate 10 0)).1 (by decide)⟩

/-- C7: holder analysis returns the all-zero stats when total supply is 0
(no division is attempted — the zero branch returns before any ratio);
otherwise the top-10 percent is the sum of the first ten accounts' raw
amounts divided by total supply times 100 (computed from the raw sum, not
from per-holder percentages), and the top-1 percent is the first-ranked
account's percent of supply. -/
theorem analyze_holders_spec (largest : List LargestAccount) (ts : Nat) :
    (ts = 0 → analyze_holders largest ts = emptyHolderStats)
    ∧ (0 < ts → (analyze_holders largest ts).top_10_percent
        = (((largest.take 10).map (fun h => h.amount)).sum : ℚ) / (ts : ℚ) * 100)
    ∧ (0 < ts → ∀ h t, largest = h :: t →
        (analyze_holders largest ts).top_holder_percent = (h.amount : ℚ) / (ts : ℚ) * 100) := by
  refine ⟨fun h0 => ?_, fun hts => ?_, fun hts h t hl => ?_⟩
  · unfold analyze_holders
    rw [if_pos (Or.inr h0)]
  · by_cases hc : largest = [] ∨ ts = 0
    · rcases hc with hc | hc
      · subst hc
        simp [analyze_holders, emptyHolderStats]
      · omega
    · unfold analyze_holders
      rw [if_neg hc]
      simp only [hts, if_true]
  · subst hl
    unfold analyze_holders
    rw [if_neg (by simp; omega)]
    simp only [holderPercent, hts, if_true]

/-- C7 witness: two holders of 30 and 20 out of supply 100. -/
theorem analyze_holders_spec_witness :
    (0:Nat) < 100
    ∧ (analyze_holders
        [{ amount := 30, uiAmount := 30, address := "A" },
         { amount := 20, uiAmount := 20, address := "B" }] 100).top_10_percent
      = ((([({ amount := 30, uiAmount := 30, address := "A" } : LargestAccount),
           { amount := 20, uiAmount := 20, address := "B" }].take 10).map
          (fun h => h.amount)).sum : ℚ) / (100 : ℚ) * 100
    ∧ (analyze_holders
        [{ amount := 30, uiAmount := 30, address := "A" },
         { amount := 20, uiAmount := 20, address := "B" }] 100).top_holder_percent
      = ((30:Nat) : ℚ) / ((100:Nat) : ℚ) * 100 :=
  ⟨by decide,
   (analyze_holders_spec _ 100).2.1 (by decide),
   (analyze_holders_spec
      [{ amount := 30, uiAmount := 30, address := "A" },
       { amount := 20, uiAmount := 20, address := "B" }] 100).2.2
     (by decide) _ _ rfl⟩

/-- C2: in the common reconciliation case (`initial_supply > 0` and
`initial_supply ≥ current_supply`), burned is `(initial − current) +
incinerator_amount`, original is `initial + incinerator_amount` exactly when
the incinerator amount is positive and `initial` otherwise, and the stored
per-pool burn percent is `min(100, burned / original * 100)` (the original
is positive here, so the guarded percent equals the plain ratio). -/
theorem reconcile_case1 (initial s incin bc tm : ℚ)
    (h1 : 0 < initial) (h2 : s ≤ initial) :
    reconcile initial s incin bc tm
      = (initial - s + incin, if 0 < incin then initial + incin else initial)
    ∧ min 100 (poolBurnPct (initial - s + incin)
        (if 0 < incin then initial + incin else initial))
      = min 100 ((initial - s + incin)
        / (if 0 < incin then initial + incin else initial) * 100) := by
  constructor
  · unfold reconcile
    rw [if_pos ⟨h1, h2⟩]
  · have horig : (0:ℚ) < (if 0 < incin then initial + incin else initial) := by
      split_ifs <;> linarith
    unfold poolBurnPct
    rw [if_pos horig]

/-- C2 witness: initial 1000, current 400, incinerator 50. -/
theorem reconcile_case1_witness :
    reconcile 1000 400 50 0 0 = (650, 1050)
    ∧ min 100 (poolBurnPct 650 1050) = min 100 ((650:ℚ) / 1050 * 100) := by
  have h := reconcile_case1 1000 400 50 0 0 (by norm_num) (by norm_num)
  constructor
  · rw [h.1]
    norm_num
  · have h2 := h.2
    norm_num at h2 ⊢
    exact h2

/-- C5: the burn-instruction scan of `_check_burn_checked` counts a parsed
instruction of type `burn` whose mint field names a DIFFERENT mint than the
LP mint: the `or ix_type == "burn"` disjunct bypasses the mint check that
the source's own comment ("Verify it's for our LP mint") announces.  On a
single transaction holding one `burn` instruction for mint `OTHER` with
amount 5, the scan for LP mint `LP` returns amount 5 and count 1, where the
claim requires 0 and 0. -/
theorem burn_ix_foreign_mint_counted :
    check_burn_checked "LP" 0
      [some { topIx := [{ ixType := "burn", mint := "OTHER", tokenAmount := some 5,
                          amountRaw := 0 }], innerIx := [] }] = (5, 1)
    ∧ ("OTHER" : String) ≠ "LP" := by
  constructor
  · norm_num [check_burn_checked, allInstructions, burnIxAmount, Prod.ext_iff]
  · decide

/-- C8: `analyze` fails with the invalid-address error exactly when the
address does not base58-decode to 32 bytes, with the not-a-token error when
the account's owner check fails, with the token-info error when the mint
account cannot be fetched or decoded; the three error messages are pairwise
distinct (the failure kinds are distinguishable); in all remaining cases it
returns a report. -/
theorem analyze_error_taxonomy (env : AnalyzeEnv) :
    (is_valid_address env.decoded = false → analyze env = .error msgInvalidAddress)
    ∧ (is_valid_address env.decoded = true → env.isTokenOwner = false →
        analyze env = .error msgNotAToken)
    ∧ (is_valid_address env.decoded = true → env.isTokenOwner = true →
        env.mintData.bind decodeMint = none → analyze env = .error msgTokenInfoUnavailable)
    ∧ (is_valid_address env.decoded = true → env.isTokenOwner = true →
        ∀ ti, env.mintData.bind decodeMint = some ti → (analyze env).isOk = true)
    ∧ msgInvalidAddress ≠ msgNotAToken
    ∧ msgInvalidAddress ≠ msgTokenInfoUnavailable
    ∧ msgNotAToken ≠ msgTokenInfoUnavailable := by
  refine ⟨fun h1 => ?_, fun h1 h2 => ?_, fun h1 h2 h3 => ?_, fun h1 h2 ti h3 => ?_,
    by decide, by decide, by decide⟩
  · simp [analyze, h1]
  · simp [analyze, h1, h2]
  · simp [analyze, h1, h2, h3]
  · simp [analyze, h1, h2, h3, Except.isOk, Except.toBool]

/-- C8 witness: an address that fails base58/length validation yields the
invalid-address error; a fetchable 82-byte zero mint yields a report. -/
theorem analyze_error_taxonomy_witness :
    analyze { decoded := none, isTokenOwner := false, mintData := none, largest := [],
              lpEnv := { offsetResults := [] }, lpInfoFound := false, liquidityXn := 0,
              xntUsdRate := 0 } = Except.error msgInvalidAddress
    ∧ (analyze { decoded := some (List.replicate 32 0), isTokenOwner := true,
                 mintData := some (List.replicate 82 0), largest := [],
                 lpEnv := { offsetResults := [] }, lpInfoFound := false, liquidityXn := 0,
                 xntUsdRate := 0 }).isOk = true :=
  ⟨(analyze_error_taxonomy _).1 (by decide),
   (analyze_error_taxonomy _).2.2.2.1 (by decide) (by decide)
     { decimals := 0, supply := 0, mint_authority := none, freeze_authority := none,
       is_initialized := false } (by decide)⟩

/-- C3: for any run of `check_lp_status`, the per-pool original and burned
values sum exactly to the reported aggregate totals; when the total original
supply is positive the overall burn percent is `min(100, B/S*100)` computed
from the pooled sums (not an average of per-pool percentages); the pools
list is sorted descending by reconstructed original supply; and the head
entry supplies the main-pool fields of the result. -/
theorem lp_aggregate_totals (env : LPEnv) :
    (((checkLPStatus env).pools.map (fun e => e.lp_original_supply)).sum
        = (checkLPStatus env).total_lp_supply_all_pools)
    ∧ (((checkLPStatus env).pools.map (fun e => e.burned_amount)).sum
        = (checkLPStatus env).total_burned_all_pools)
    ∧ (0 < (checkLPStatus env).total_lp_supply_all_pools →
        (checkLPStatus env).total_burn_percent
          = min 100 ((checkLPStatus env).total_burned_all_pools
              / (checkLPStatus env).total_lp_supply_all_pools * 100))
    ∧ List.Pairwise (fun a b => b.lp_original_supply ≤ a.lp_original_supply)
        (checkLPStatus env).pools
    ∧ (∀ h t, (checkLPStatus env).pools = h :: t →
        (checkLPStatus env).lp_mint = h.lp_mint
        ∧ (checkLPStatus env).lp_address = some h.pool_address
        ∧ (checkLPStatus env).lp_total_supply = h.lp_supply
        ∧ (checkLPStatus env).lp_burned_amount = h.burned_amount
        ∧ (checkLPStatus env).lp_burn_percent = h.burn_percent) := by
  unfold checkLPStatus
  by_cases hd : discoverPools env.offsetResults = []
  · rw [if_pos hd]
    refine ⟨by simp [defaultLPStatus], by simp [defaultLPStatus], ?_,
      by simp [defaultLPStatus], ?_⟩
    · intro h
      simp [defaultLPStatus] at h
    · intro h t hht
      simp [defaultLPStatus] at hht
  · rw [if_neg hd]
    obtain ⟨h1, h2, h3, hpw, hz⟩ :=
      foldl_accSums (discoverPools env.offsetResults) initLPAccum accSums_init
    unfold aggregateLP
    by_cases hdet :
      ((discoverPools env.offsetResults).foldl processPool initLPAccum).details = []
    · rw [if_pos hdet]
      refine ⟨by simp [defaultLPStatus], by simp [defaultLPStatus], ?_,
        by simp [defaultLPStatus], ?_⟩
      · intro h
        simp [defaultLPStatus] at h
      · intro h t hht
        simp [defaultLPStatus] at hht
    · rw [if_neg hdet]
      refine ⟨?_, ?_, ?_, ?_, ?_⟩
      · dsimp only
        exact (sortedPools_sum _ (fun e => e.lp_original_supply) (fun e => rfl)).trans h1.symm
      · dsimp only
        exact (sortedPools_sum _ (fun e => e.burned_amount) (fun e => rfl)).trans h2.symm
      · dsimp only
        intro hT
        rw [if_pos hT]
      · dsimp only
        exact sortedPools_sorted _
      · dsimp only
        intro h t hht
        rw [hht]
        exact ⟨rfl, rfl, rfl, rfl, rfl⟩

/-- C3 witness: on `envPools` the totals are positive, the overall percent
is the capped pooled ratio, and the head entry is the main pool. -/
theorem lp_aggregate_totals_witness :
    (0:ℚ) < (checkLPStatus envPools).total_lp_supply_all_pools
    ∧ (checkLPStatus envPools).total_burn_percent
        = min 100 ((checkLPStatus envPools).total_burned_all_pools
            / (checkLPStatus envPools).total_lp_supply_all_pools * 100)
    ∧ (checkLPStatus envPools).lp_mint = entryPools.lp_mint := by
  have he := checkLPStatus_envPools
  have h := lp_aggregate_totals envPools
  refine ⟨?_, ?_, ?_⟩
  · rw [he]
    norm_num [statusPools]
  · exact h.2.2.1 (by rw [he]; norm_num [statusPools])
  · exact (h.2.2.2.2 entryPools [] (by rw [he]; rfl)).1

/-- C4 counterexample: a pool candidate whose LP mint cannot be resolved is
appended to `pool_details` with `lp_original_supply = 0` and survives into
the returned pools list, contradicting the claim that every pool entry with
zero reconstructed original supply is absent from the list. -/
theorem zero_original_pool_listed :
    ∃ e ∈ (checkLPStatus envNoMint).pools, e.lp_original_supply = 0 := by
  have hd : discoverPools envNoMint.offsetResults = [acctNoMint] := rfl
  have hf : List.foldl processPool initLPAccum [acctNoMint]
      = { details := [noLpEntry acctNoMint],
          totalSupply := 0, totalCurrent := 0, totalBurned := 0, totalTxs := 0 } := by
    rw [List.foldl_cons, List.foldl_nil]
    unfold processPool
    rw [show acctNoMint.data = some (List.replicate 168 0) from rfl]
    dsimp only
    rw [if_neg (by simp only [List.length_replicate]; omega)]
    rw [if_neg (by decide)]
    rw [show acctNoMint.obs.lpMint = (none : Option String) from rfl]
    simp [initLPAccum]
  have hsp : sortedPools
      { details := [noLpEntry acctNoMint],
        totalSupply := 0, totalCurrent := 0, totalBurned := 0, totalTxs := 0 }
      = [noLpEntry acctNoMint] := by
    norm_num [sortedPools, List.insertionSort, List.orderedInsert, setBurnPctOfTotal,
      noLpEntry]
  unfold checkLPStatus
  rw [hd, hf]
  rw [if_neg (by simp)]
  unfold aggregateLP
  rw [if_neg (by simp)]
  dsimp only
  rw [hsp]
  exact ⟨noLpEntry acctNoMint, by simp, rfl⟩

/-- C4 amended: every pool entry with a RESOLVED LP mint has positive
reconstructed original supply (zero-original candidates are excluded from
the list), while candidates whose LP mint could not be resolved do appear
in the pools list but carry zero supply, burned amount and burn-tx count,
so they contribute nothing to the aggregate totals. -/
theorem zero_original_excluded_amended (env : LPEnv)
    (hwf : ∀ p ∈ discoverPools env.offsetResults, p.obs.WF) :
    ∀ e ∈ (checkLPStatus env).pools,
      (∀ m, e.lp_mint = some m → 0 < e.lp_original_supply)
      ∧ (e.lp_mint = none → e.lp_original_supply = 0 ∧ e.burned_amount = 0
          ∧ e.burn_tx_count = 0 ∧ e.lp_supply = 0) := by
  unfold checkLPStatus
  by_cases hd : discoverPools env.offsetResults = []
  · rw [if_pos hd]
    intro e he
    simp [defaultLPStatus] at he
  · rw [if_neg hd]
    have hsums := foldl_accSums (discoverPools env.offsetResults) initLPAccum accSums_init
    have hpos := foldl_posInv (discoverPools env.offsetResults) initLPAccum hwf
      (by intro e he; simp [initLPAccum] at he)
    unfold aggregateLP
    by_cases hdet :
      ((discoverPools env.offsetResults).foldl processPool initLPAccum).details = []
    · rw [if_pos hdet]
      intro e he
      simp [defaultLPStatus] at he
    · rw [if_neg hdet]
      intro e he
      dsimp only at he
      rcases sortedPools_mem _ _ he with ⟨d, hdm, rfl⟩
      constructor
      · intro m hm
        exact hpos d hdm m hm
      · intro hnone
        have hzz := hsums.2.2.2.2 d hdm hnone
        exact ⟨hzz.1, hzz.2.1, hzz.2.2.1, hzz.2.2.2⟩

/-- C4 witness: on `envPools` the single returned entry has a resolved LP
mint and positive original supply. -/
theorem zero_original_excluded_amended_witness :
    (0:ℚ) < entryPools.lp_original_supply := by
  have he := checkLPStatus_envPools
  have h := zero_original_excluded_amended envPools
    (by
      intro p hp
      rw [discoverPools_envPools] at hp
      rw [List.mem_singleton] at hp
      subst hp
      norm_num [PoolObs.WF, acctPools, obsPools])
    entryPools
    (by rw [he]; exact List.mem_singleton_self _)
  exact h.1 "M1" rfl

/-- C9: `check_lp_status` is total over environments carrying every
absorbed failure mode (no exception escapes), and whatever could not be
derived degrades to the neutral default: an empty discovery yields exactly
the initialized default dictionary (all keys present with neutral values),
a result without `lp_found` is exactly that default, and a result with an
empty pools list carries zero percents, totals and counts and absent
addresses. -/
theorem check_lp_status_defaults (env : LPEnv) :
    (discoverPools env.offsetResults = [] → checkLPStatus env = defaultLPStatus)
    ∧ ((checkLPStatus env).lp_found = false → checkLPStatus env = defaultLPStatus)
    ∧ ((checkLPStatus env).pools = [] →
        (checkLPStatus env).lp_burn_percent = 0
        ∧ (checkLPStatus env).lp_mint = none
        ∧ (checkLPStatus env).lp_address = none
        ∧ (checkLPStatus env).lp_total_supply = 0
        ∧ (checkLPStatus env).lp_burned_amount = 0
        ∧ (checkLPStatus env).total_lp_supply_all_pools = 0
        ∧ (checkLPStatus env).total_burned_all_pools = 0
        ∧ (checkLPStatus env).total_burn_percent = 0
        ∧ (checkLPStatus env).burn_tx_count = 0
        ∧ (checkLPStatus env).lp_burned = false) := by
  unfold checkLPStatus
  by_cases hd : discoverPools env.offsetResults = []
  · rw [if_pos hd]
    exact ⟨fun _ => rfl, fun _ => rfl,
      fun _ => ⟨rfl, rfl, rfl, rfl, rfl, rfl, rfl, rfl, rfl, rfl⟩⟩
  · rw [if_neg hd]
    unfold aggregateLP
    by_cases hdet :
      ((discoverPools env.offsetResults).foldl processPool initLPAccum).details = []
    · rw [if_pos hdet]
      refine ⟨fun h => absurd h hd, fun hlf => ?_,
        fun _ => ⟨rfl, rfl, rfl, rfl, rfl, rfl, rfl, rfl, rfl, rfl⟩⟩
      simp [defaultLPStatus] at hlf
    · rw [if_neg hdet]
      refine ⟨fun h => absurd h hd, fun hlf => ?_, fun hp => ?_⟩
      · simp at hlf
      · exact absurd hp (sortedPools_ne_nil _ hdet)

/-- C9 witness: an environment whose single offset query failed yields the
untouched default dictionary. -/
theorem check_lp_status_defaults_witness :
    checkLPStatus { offsetResults := [none] } = defaultLPStatus :=
  (check_lp_status_defaults _).1 rfl

/-- C10: in every pools list produced by `check_lp_status`, no two entries
share the same resolved (non-absent) LP mint — duplicates found at other
offsets are skipped before they can contribute to the totals. -/
theorem pools_lp_mint_unique (env : LPEnv) :
    List.Pairwise mintDistinct (checkLPStatus env).pools := by
  unfold checkLPStatus
  by_cases hd : discoverPools env.offsetResults = []
  · rw [if_pos hd]
    exact List.Pairwise.nil
  · rw [if_neg hd]
    have hsums := foldl_accSums (discoverPools env.offsetResults) initLPAccum accSums_init
    unfold aggregateLP
    by_cases hdet :
      ((discoverPools env.offsetResults).foldl processPool initLPAccum).details = []
    · rw [if_pos hdet]
      exact List.Pairwise.nil
    · rw [if_neg hdet]
      exact sortedPools_pairwise _ hsums.2.2.2.1

/-- C1: the risk score of `analyze` equals the spec's weight table — +25
mint authority, +25 freeze authority, +20/+10/+5 for top-holder percent
above 50 / in (20, 50] / in (10, 20], +5 for top-10 percent above 80, +5
for LP burn percent in [50, 90), +10 in (0, 50), +15 for zero or no pool
found (at least 90 adds nothing), and +5 for liquidity present but below
its floor; the resulting score lies in [0, 100] (the raw sum never exceeds
95, so the clamp is exact), and the classification thresholds are
critical iff at least 75, high iff in [50, 75), medium iff in [25, 50),
else safe. -/
theorem risk_score_weight_table (ma fa lf : Bool) (tp t10 lpPct liqU liqX : ℚ)
    (hlp : 0 ≤ lpPct) :
    (min 100 (riskScoreRaw ma fa tp t10 lf lpPct liqU liqX)
      = (if ma then 25 else 0) + (if fa then 25 else 0)
        + ((if 50 < tp then 20 else 0) + (if 20 < tp ∧ tp ≤ 50 then 10 else 0)
            + (if 10 < tp ∧ tp ≤ 20 then 5 else 0))
        + (if t10 > 80 then 5 else 0)
        + ((if lf = true ∧ 50 ≤ lpPct ∧ lpPct < 90 then 5 else 0)
            + (if lf = true ∧ 0 < lpPct ∧ lpPct < 50 then 10 else 0)
            + (if (lf = true ∧ lpPct = 0) ∨ lf = false then 15 else 0))
        + (if (0 < liqU ∧ liqU < 5000) ∨ (liqU = 0 ∧ 0 < liqX ∧ liqX < 2000) then 5
           else 0))
    ∧ min 100 (riskScoreRaw ma fa tp t10 lf lpPct liqU liqX) ≤ 100
    ∧ (classifyRisk (riskScoreRaw ma fa tp t10 lf lpPct liqU liqX) = RiskLevel.critical
        ↔ 75 ≤ min 100 (riskScoreRaw ma fa tp t10 lf lpPct liqU liqX))
    ∧ (classifyRisk (riskScoreRaw ma fa tp t10 lf lpPct liqU liqX) = RiskLevel.high
        ↔ 50 ≤ min 100 (riskScoreRaw ma fa tp t10 lf lpPct liqU liqX)
          ∧ min 100 (riskScoreRaw ma fa tp t10 lf lpPct liqU liqX) < 75)
    ∧ (classifyRisk (riskScoreRaw ma fa tp t10 lf lpPct liqU liqX) = RiskLevel.medium
        ↔ 25 ≤ min 100 (riskScoreRaw ma fa tp t10 lf lpPct liqU liqX)
          ∧ min 100 (riskScoreRaw ma fa tp t10 lf lpPct liqU liqX) < 50)
    ∧ (classifyRisk (riskScoreRaw ma fa tp t10 lf lpPct liqU liqX) = RiskLevel.safe
        ↔ min 100 (riskScoreRaw ma fa tp t10 lf lpPct liqU liqX) < 25) := by
  have hb := riskScoreRaw_le ma fa lf tp t10 lpPct liqU liqX
  have hmin : min 100 (riskScoreRaw ma fa tp t10 lf lpPct liqU liqX)
      = riskScoreRaw ma fa tp t10 lf lpPct liqU liqX :=
    min_eq_right (le_trans hb (by norm_num))
  refine ⟨?_, ?_, ?_, ?_, ?_, ?_⟩
  · rw [hmin]
    unfold riskScoreRaw
    rw [holder_bucket, lp_bucket lf lpPct hlp, liq_bucket]
  · rw [hmin]
    exact le_trans hb (by norm_num)
  · rw [hmin]
    unfold classifyRisk
    split_ifs <;> simp <;> omega
  · rw [hmin]
    unfold classifyRisk
    split_ifs <;> simp <;> omega
  · rw [hmin]
    unfold classifyRisk
    split_ifs <;> simp <;> omega
  · rw [hmin]
    unfold classifyRisk
    split_ifs <;> simp <;> omega

/-- C1 witness: mint authority active, top holder at 60 percent, LP found
but unburned, thin positive liquidity: score 65, classification high. -/
theorem risk_score_weight_table_witness :
    min 100 (riskScoreRaw true false 60 10 true 0 100 100) = 65
    ∧ classifyRisk (riskScoreRaw true false 60 10 true 0 100 100) = RiskLevel.high := by
  have h := risk_score_weight_table true false true 60 10 0 100 100 (le_refl 0)
  constructor
  · rw [h.1]
    norm_num
  · refine (h.2.2.2.1).mpr ?_
    rw [h.1]
    norm_num

end X1Scanner
